import Mathlib

/-!
Verification of the todo MCP server (`src/index.ts`) against its
natural-language specification.

The server keeps its state in a single JavaScript object mapping string
identifiers to todo records.  We embed that object as an association list
`List (String × Todo)` whose list order is the object's key iteration
order.  JavaScript iterates keys that are canonical array indices (decimal
integer strings) in ascending numeric order; in every state reachable by
this program all keys are such strings, so the ascending-keys property
appears as an explicit hypothesis where a theorem needs it.

Fallible handlers are embedded as functions returning `Except String α`
(the string is the message of the thrown `Error`); mutating handlers
return the new collection alongside the result, so "the collection is
unchanged on failure" is a genuine statement about the returned state.
-/

namespace TodoMcp

/-- A todo record, mirroring `type Todo = { title, content, done }`. -/
structure Todo where
  title : String
  content : String
  done : Bool
deriving DecidableEq, Repr

/-- The in-memory collection: the JS object `todos` as an association list
in key iteration order. -/
abbrev Coll := List (String × Todo)

/-- Models the JS coercion `String(x)` applied to an optional request
argument: an absent argument is `undefined`, and `String(undefined)` is
the string `"undefined"`. -/
def jsString : Option String → String
  | none => "undefined"
  | some s => s

/-- Models the JS coercion `Boolean(x)` applied to an optional request
argument: `Boolean(undefined)` is `false`. -/
def jsBool : Option Bool → Bool
  | none => false
  | some b => b

/-- Models the JS property read `todos[id]`: the value at key `id`, if
present (JS object keys are unique, so the first match is the match). -/
def objGet (todos : Coll) (id : String) : Option Todo :=
  (todos.find? (fun p => p.1 = id)).map Prod.snd

/-- Models the JS property write `todos[id] = v`: an existing key keeps
its iteration position and gets the new value; a fresh key is appended.
(JS places a fresh canonical-integer key at its ascending numeric
position; in this program a fresh key always exceeds every existing
numeric key, so appending is that position.) -/
def objSet (todos : Coll) (id : String) (v : Todo) : Coll :=
  if todos.any (fun p => p.1 = id) then
    todos.map (fun p => if p.1 = id then (id, v) else p)
  else
    todos ++ [(id, v)]

/-- Accumulates a decimal digit string into a number, most significant
digit first. -/
def digitsToNat (acc : Nat) : List Char → Nat
  | [] => acc
  | c :: rest => digitsToNat (acc * 10 + (c.toNat - Char.toNat (Char.ofNat 48))) rest

/-- Models the JS conversion `Number(s)` on the identifier strings this
program produces: a nonempty string of decimal digits converts to the
number it denotes, and any other string is `NaN` (here `none`).  (Real JS
`Number` also accepts signs, whitespace and fractions, none of which
occur as keys of the collection.) -/
def jsNumberNat (s : String) : Option Nat :=
  if s.data.isEmpty then none
  else if s.data.all Char.isDigit then some (digitsToNat 0 s.data)
  else none

/-- Identifier assignment of `create_todo` (lines 206-208): take
`Object.keys(todos)`; if there are none the id is `"1"`, otherwise the id
is `String(Number(lastKey) + 1)`.  A last key that is not a digit string
would make `Number` return `NaN` and the id the string `"NaN"`. -/
def assignedId (todos : Coll) : String :=
  match (todos.map Prod.fst).getLast? with
  | none => "1"
  | some k =>
    match jsNumberNat k with
    | some n => toString (n + 1)
    | none => "NaN"

/-- The `create_todo` tool handler (lines 199-218).  Arguments arrive as
optional values; the handler coerces them with `String(...)`, rejects
empty strings (the only falsy strings), assigns an id, and stores the new
todo with `done = false`.  The returned pair is (new collection, result);
on error the collection is returned unchanged. -/
def create_todo (todos : Coll) (titleArg contentArg : Option String) : Coll × Except String String :=
  let title := jsString titleArg
  let content := jsString contentArg
  if title = "" ∨ content = "" then
    (todos, Except.error ("Title and content are required"))
  else
    let id := assignedId todos
    (objSet todos id ⟨title, content, false⟩,
     Except.ok ("Created todo " ++ id ++ ": " ++ title))

/-- The `mark_todo_done` tool handler (lines 220-237): coerces the
arguments, fails when the id is absent from the collection, otherwise
updates only the `done` field of that entry in place. -/
def mark_todo_done (todos : Coll) (idArg : Option String) (doneArg : Option Bool) : Coll × Except String String :=
  let id := jsString idArg
  let done := jsBool doneArg
  match objGet todos id with
  | none => (todos, Except.error ("Todo " ++ id ++ " not found"))
  | some _ =>
    let todos2 := todos.map (fun p => if p.1 = id then (p.1, ⟨p.2.title, p.2.content, done⟩) else p)
    let doneWord := if done then "done" else "not done"
    (todos2, Except.ok ("Marked todo " ++ id ++ " as " ++ doneWord))

/-- One output line of `get_all_todos` (line 242), mirroring the template
literal there, trailing newline included. -/
def todoLine (id : String) (t : Todo) : String :=
  id ++ ": " ++ t.title ++ " - " ++ (if t.done then "Done" else "Not Done") ++ "\n"

/-- The `get_all_todos` tool handler (lines 239-251): accumulates one
line per entry in iteration order into `result`, then returns `result`
unless it is the empty string (the only falsy string), in which case the
literal `"No todos available"`. -/
def get_all_todos (todos : Coll) : String :=
  let result := todos.foldl (fun acc p => acc ++ todoLine p.1 p.2) ""
  if result = "" then "No todos available" else result

/-- The reindexing step of `delete_todo` (lines 263-268): number the
surviving entries `1, 2, ...` in their existing relative order, the keys
being `(index + 1).toString()`. -/
def reindexTodos (entries : Coll) : Coll :=
  entries.enum.map (fun e => (toString (e.1 + 1), e.2.2))

/-- The `delete_todo` tool handler (lines 253-278): fails when the id is
absent, otherwise removes that key (JS `delete todos[id]`; keys are
unique, so this is filtering the key out) and replaces the collection by
the reindexed survivors. -/
def delete_todo (todos : Coll) (idArg : Option String) : Coll × Except String String :=
  let id := jsString idArg
  match objGet todos id with
  | none => (todos, Except.error ("Todo " ++ id ++ " not found"))
  | some _ =>
    let newTodos := reindexTodos (todos.filter (fun p => p.1 ≠ id))
    (newTodos, Except.ok ("Deleted todo " ++ id ++ " and reindexed remaining todos"))

/-- Models `new URL(uri).pathname` for the URIs this server handles,
which have the shape `todo:///<id>` with `<id>` free of URL-special
characters: the pathname is everything after the 7 characters
`todo://`. -/
def urlPathname (uri : String) : String :=
  String.mk (uri.data.drop 7)

/-- Models `.replace(/^\//, '')`: removes one leading slash, if any. -/
def stripLeadingSlash (s : String) : String :=
  match s.data with
  | '/' :: rest => String.mk rest
  | _ => s

/-- One content block of a read-resource response. -/
structure ContentBlock where
  uri : String
  mimeType : String
  text : String
  done : Bool
deriving DecidableEq, Repr

/-- The read-resource handler (lines 101-118): extracts the id from the
URI path, fails when it is absent from the collection, otherwise returns
a single block echoing the URI with the todo's content and done flag. -/
def read_resource (todos : Coll) (uri : String) : Except String (List ContentBlock) :=
  let id := stripLeadingSlash (urlPathname uri)
  match objGet todos id with
  | none => Except.error ("Note " ++ id ++ " not found")
  | some todo => Except.ok [⟨uri, "text/plain", todo.content, todo.done⟩]

/-- The content of one prompt message: either plain instruction text or
an embedded inline resource. -/
inductive MsgContent where
  | text (s : String)
  | resource (uri : String) (mimeType : String) (s : String) (done : Bool)
deriving DecidableEq, Repr

/-- One message of the summarization prompt. -/
structure PromptMessage where
  role : String
  content : MsgContent
deriving DecidableEq, Repr

/-- The leading instruction message of the summarization prompt. -/
def summaryLead : PromptMessage :=
  ⟨"user", MsgContent.text "Please summarize the following todos:"⟩

/-- The trailing instruction message of the summarization prompt. -/
def summaryTrail : PromptMessage :=
  ⟨"user", MsgContent.text "Provide a concise summary of all the todos above."⟩

/-- The embedded-resource content built for one todo (lines 309-317). -/
def embedTodo (id : String) (t : Todo) : MsgContent :=
  MsgContent.resource ("todo:///" ++ id) "text/plain" t.content t.done

/-- The `summarize_todos` prompt handler (lines 304-341): one leading
instruction message, one embedded resource message per todo in iteration
order, one trailing instruction message. -/
def build_summary_prompt (todos : Coll) : List PromptMessage :=
  let embeddedNotes := todos.map (fun p => embedTodo p.1 p.2)
  [summaryLead] ++ embeddedNotes.map (fun c => (⟨"user", c⟩ : PromptMessage)) ++ [summaryTrail]

/-- The startup loader `loadTodos` (lines 44-53), embedded over the
outcome of `fs.readFile` (`Except.error` for any read failure,
`Except.ok` for the file text) and the external `JSON.parse` (`none`
when the parse throws).  The second component lists the contents written
back to the backing file: on any failure the loader writes
`JSON.stringify({})`, that is `"{}"`, and yields the empty collection
instead of surfacing an error. -/
def loadTodos (readOutcome : Except String String) (parseJson : String → Option Coll) : Coll × List String :=
  match readOutcome with
  | Except.error _ => ([], ["{}"])
  | Except.ok data =>
    match parseJson data with
    | none => ([], ["{}"])
    | some c => (c, [])

/-- Modelled from the spec for comparison with `assignedId`: the current
maximum numeric identifier present in the Collection, or 0 if it is
empty. -/
def specMaxNumericId (todos : Coll) : Nat :=
  (todos.map (fun p => (jsNumberNat p.1).getD 0)).foldr max 0

/-- A strictly ascending chain of numbers. -/
def ascChain : List Nat → Bool
  | [] => true
  | [_] => true
  | a :: b :: rest => decide (a < b) && ascChain (b :: rest)

/-- The JS object-key invariant of every reachable collection: all keys
are decimal digit strings and they occur in strictly ascending numeric
order (JavaScript iterates canonical array-index keys in that order). -/
def keysNumericAscending (todos : Coll) : Bool :=
  todos.all (fun p => (jsNumberNat p.1).isSome) &&
    ascChain (todos.map (fun p => (jsNumberNat p.1).getD 0))

/-- Modelled from the spec for comparison with `get_all_todos`: the
concatenation of one formatted line per todo, in collection order. -/
def specTodoLines : Coll → String
  | [] => ""
  | p :: rest => todoLine p.1 p.2 ++ specTodoLines rest

/-! Helper lemmas about strings and the accumulator loop of
`get_all_todos`. -/

lemma append_newline_ne_empty (a : String) : a ++ "\n" ≠ "" := by
  intro h
  have hd := congrArg String.data h
  rw [String.data_append] at hd
  have h2 : ("\n" : String).data = ['\n'] := rfl
  have h3 : ("" : String).data = [] := rfl
  rw [h2, h3] at hd
  simp at hd

lemma todoLine_ne_empty (id : String) (t : Todo) : todoLine id t ≠ "" :=
  append_newline_ne_empty _

lemma append_ne_empty_left (a b : String) (ha : a ≠ "") : a ++ b ≠ "" := by
  intro h
  apply ha
  have hd := congrArg String.data h
  rw [String.data_append] at hd
  have h3 : ("" : String).data = [] := rfl
  rw [h3] at hd
  exact String.ext ((List.append_eq_nil.mp hd).1.trans h3.symm)

lemma foldl_todoLine (l : Coll) (acc : String) :
    l.foldl (fun acc p => acc ++ todoLine p.1 p.2) acc = acc ++ specTodoLines l := by
  induction l generalizing acc with
  | nil => simp [specTodoLines]
  | cons p rest ih => simp [List.foldl_cons, specTodoLines, ih, String.append_assoc]

/-- C7: For every collection, `get_all_todos` returns a single text block
containing one line per todo of the exact form `"<id>: <title> - Done\n"`
or `"<id>: <title> - Not Done\n"` according to the done flag, in
collection iteration order, and on the empty collection it returns the
literal `"No todos available"`.  The handler is embedded as a pure
function of the collection, so it has no side effects on it. -/
theorem get_all_todos_format (todos : Coll) :
    get_all_todos todos = if todos.isEmpty then "No todos available" else specTodoLines todos := by
  unfold get_all_todos
  rw [foldl_todoLine, String.empty_append]
  cases todos with
  | nil => simp [specTodoLines]
  | cons p rest =>
    have hne : specTodoLines (p :: rest) ≠ "" := by
      show todoLine p.1 p.2 ++ specTodoLines rest ≠ ""
      exact append_ne_empty_left _ _ (todoLine_ne_empty p.1 p.2)
    rw [if_neg hne]
    simp

/-- C9: the loader treats every load failure alike: whenever reading the
backing file fails for any reason, or its content fails to parse, the
loader surfaces no error but yields the empty collection, and it writes
the serialized empty collection `"{}"` (that is `JSON.stringify({})`)
back to the backing file. -/
theorem loadTodos_fallback_empty_and_write (readOutcome : Except String String)
    (parseJson : String → Option Coll)
    (h : (∃ e, readOutcome = Except.error e)
        ∨ ∃ d, readOutcome = Except.ok d ∧ parseJson d = none) :
    loadTodos readOutcome parseJson = ([], ["{}"]) := by
  rcases h with ⟨e, rfl⟩ | ⟨d, rfl, hp⟩
  · rfl
  · simp [loadTodos, hp]

theorem loadTodos_fallback_empty_and_write_witness :
    loadTodos (Except.error "ENOENT") (fun _ => none) = ([], ["{}"]) :=
  loadTodos_fallback_empty_and_write _ _ (Or.inl ⟨"ENOENT", rfl⟩)

/-- C8: for every collection `build_summary_prompt` succeeds and returns
exactly `2 + N` messages: the leading instruction message, then one
message per todo embedding `todo:///<id>`, `text/plain`, the todo's
content and done flag as an inline resource, in collection order, then
the trailing instruction message; on the empty collection exactly the
two instruction messages remain. -/
theorem build_summary_prompt_shape (todos : Coll) :
    build_summary_prompt todos
        = summaryLead :: (todos.map (fun p => (⟨"user", embedTodo p.1 p.2⟩ : PromptMessage)) ++ [summaryTrail])
      ∧ (build_summary_prompt todos).length = 2 + todos.length
      ∧ (todos = [] → build_summary_prompt todos = [summaryLead, summaryTrail]) := by
  refine ⟨?_, ?_, ?_⟩
  · simp [build_summary_prompt, List.map_map, Function.comp]
  · simp [build_summary_prompt]
    omega
  · intro h
    subst h
    rfl

theorem build_summary_prompt_shape_witness :
    build_summary_prompt ([] : Coll) = [summaryLead, summaryTrail] :=
  (build_summary_prompt_shape []).2.2 rfl

/-- C3 (code bug): calling `create_todo` with the `title` and `content`
arguments absent is not rejected, although the tool schema declares both
required and the error message says they are required: `String(undefined)`
is the truthy string `"undefined"`, so on the empty collection the call
creates todo `"1"` titled `"undefined"` and reports success instead of
failing with "Title and content are required". -/
theorem create_todo_absent_args_not_rejected :
    create_todo [] none none
      = ([("1", ⟨"undefined", "undefined", false⟩)],
         Except.ok ("Created todo 1: undefined")) := rfl

/-! Identifier assignment: the code reads the last iterated key, which
under the JS ascending-integer-key iteration order is the numerically
greatest key. -/

lemma ascChain_getLast (l : List Nat) (hc : ascChain l = true) (hne : l ≠ []) :
    l.getLast? = some (l.foldr max 0) := by
  induction l with
  | nil => exact absurd rfl hne
  | cons a t ih =>
    cases t with
    | nil => simp [List.getLast?, ascChain]
    | cons b t2 =>
      simp only [ascChain, Bool.and_eq_true, decide_eq_true_eq] at hc
      obtain ⟨hab, hchain⟩ := hc
      have ihr := ih hchain (by simp)
      rw [List.getLast?_cons_cons, ihr]
      congr 1
      rw [List.foldr_cons (l := b :: t2)]
      have hb : b ≤ (b :: t2).foldr max 0 := by
        rw [List.foldr_cons]
        exact Nat.le_max_left _ _
      exact (Nat.max_eq_right (Nat.le_of_lt (Nat.lt_of_lt_of_le hab hb))).symm

/-- C1: for every collection whose keys satisfy the JS object invariant
(decimal digit strings iterated in strictly ascending numeric order),
the identifier `create_todo` assigns is the string form of the maximum
numeric identifier present plus one, and `"1"` on the empty collection;
with gaps this is one more than the numerically greatest existing key,
not count plus one. -/
theorem assignedId_is_max_plus_one (todos : Coll) (h : keysNumericAscending todos = true) :
    assignedId todos = toString (specMaxNumericId todos + 1) := by
  unfold keysNumericAscending at h
  rw [Bool.and_eq_true] at h
  obtain ⟨hall, hasc⟩ := h
  cases todos with
  | nil => rfl
  | cons p rest =>
    obtain ⟨k, hk⟩ : ∃ k, ((p :: rest).map Prod.fst).getLast? = some k := by
      have : ((p :: rest).map Prod.fst) ≠ [] := by simp
      cases hlk : ((p :: rest).map Prod.fst).getLast? with
      | none => exact absurd (List.getLast?_eq_none_iff.mp hlk) this
      | some k => exact ⟨k, rfl⟩
    have hkmem : k ∈ (p :: rest).map Prod.fst := List.mem_of_getLast?_eq_some hk
    obtain ⟨q, hq, hqk⟩ := List.mem_map.mp hkmem
    have hks : (jsNumberNat k).isSome = true := by
      have hx := (List.all_eq_true.mp hall) q hq
      rw [hqk] at hx
      exact hx
    obtain ⟨n, hn⟩ := Option.isSome_iff_exists.mp hks
    have hnums : ((p :: rest).map (fun p => (jsNumberNat p.1).getD 0)).getLast?
        = some ((jsNumberNat k).getD 0) := by
      have hmm : (p :: rest).map (fun p => (jsNumberNat p.1).getD 0)
          = ((p :: rest).map Prod.fst).map (fun s => (jsNumberNat s).getD 0) := by
        rw [List.map_map]
        rfl
      rw [hmm, List.getLast?_map, hk]
      rfl
    have hmax := ascChain_getLast _ hasc (by simp)
    have heq : (jsNumberNat k).getD 0
        = ((p :: rest).map (fun p => (jsNumberNat p.1).getD 0)).foldr max 0 :=
      Option.some.inj (hnums.symm.trans hmax)
    unfold assignedId specMaxNumericId
    simp only [hk, hn]
    rw [hn] at heq
    simp only [Option.getD_some] at heq
    rw [heq]

theorem assignedId_is_max_plus_one_witness :
    keysNumericAscending [("1", (⟨"A", "aa", false⟩ : Todo)), ("3", ⟨"B", "bb", true⟩)] = true
    ∧ assignedId [("1", (⟨"A", "aa", false⟩ : Todo)), ("3", ⟨"B", "bb", true⟩)]
        = toString (specMaxNumericId [("1", (⟨"A", "aa", false⟩ : Todo)), ("3", ⟨"B", "bb", true⟩)] + 1)
    ∧ assignedId [("1", (⟨"A", "aa", false⟩ : Todo)), ("3", ⟨"B", "bb", true⟩)] = "4" :=
  ⟨by decide, assignedId_is_max_plus_one _ (by decide), by decide⟩

/-! Delete and reindex. -/

lemma reindex_map_fst (l : Coll) :
    (reindexTodos l).map Prod.fst = (List.range l.length).map (fun i => toString (i + 1)) := by
  unfold reindexTodos
  rw [List.map_map, List.enum_eq_zip_range]
  have h1 : (Prod.fst ∘ fun e : Nat × (String × Todo) => (toString (e.1 + 1), e.2.2))
      = (fun i => toString (i + 1)) ∘ Prod.fst := rfl
  rw [h1, ← List.map_map, List.map_fst_zip _ _ (by simp)]

lemma reindex_map_snd (l : Coll) :
    (reindexTodos l).map Prod.snd = l.map Prod.snd := by
  unfold reindexTodos
  rw [List.map_map, List.enum_eq_zip_range]
  have h1 : (Prod.snd ∘ fun e : Nat × (String × Todo) => (toString (e.1 + 1), e.2.2))
      = Prod.snd ∘ Prod.snd := rfl
  rw [h1, ← List.map_map, List.map_snd_zip _ _ (by simp)]

/-- C2: deleting a present identifier removes that entry and replaces the
collection by the survivors, in their existing relative order, reindexed
under the contiguous keys `"1", "2", ..., "N"` where `N` is the number of
survivors, and returns the message
`"Deleted todo <id> and reindexed remaining todos"`. -/
theorem delete_todo_reindexes_contiguously (todos : Coll) (id : String) (t : Todo)
    (h : objGet todos id = some t) :
    (delete_todo todos (some id)).2
        = Except.ok ("Deleted todo " ++ id ++ " and reindexed remaining todos")
    ∧ ((delete_todo todos (some id)).1).map Prod.fst
        = (List.range (todos.filter (fun p => p.1 ≠ id)).length).map (fun i => toString (i + 1))
    ∧ ((delete_todo todos (some id)).1).map Prod.snd
        = (todos.filter (fun p => p.1 ≠ id)).map Prod.snd := by
  unfold delete_todo
  simp only [jsString, h]
  refine ⟨?_, ?_, ?_⟩
  · trivial
  · exact reindex_map_fst _
  · exact reindex_map_snd _

theorem delete_todo_reindexes_contiguously_witness :
    (delete_todo [("1", (⟨"A", "aa", false⟩ : Todo)), ("2", ⟨"B", "bb", true⟩), ("3", ⟨"C", "cc", false⟩)] (some "2")).1.map Prod.fst = ["1", "2"]
    ∧ (delete_todo [("1", (⟨"A", "aa", false⟩ : Todo)), ("2", ⟨"B", "bb", true⟩), ("3", ⟨"C", "cc", false⟩)] (some "2")).1.map Prod.snd
        = [⟨"A", "aa", false⟩, ⟨"C", "cc", false⟩]
    ∧ (delete_todo [("1", (⟨"A", "aa", false⟩ : Todo)), ("2", ⟨"B", "bb", true⟩), ("3", ⟨"C", "cc", false⟩)] (some "2")).2
        = Except.ok ("Deleted todo 2 and reindexed remaining todos") := by
  have h := delete_todo_reindexes_contiguously
      [("1", (⟨"A", "aa", false⟩ : Todo)), ("2", ⟨"B", "bb", true⟩), ("3", ⟨"C", "cc", false⟩)]
      "2" ⟨"B", "bb", true⟩ (by decide)
  exact ⟨h.2.1.trans (by decide), h.2.2.trans (by decide), h.1⟩

/-! URI extraction and object lookup lemmas. -/

lemma extract_todo_uri (id : String) :
    stripLeadingSlash (urlPathname ("todo:///" ++ id)) = id := by
  unfold urlPathname
  have h1 : ("todo:///" ++ id).data
      = 't' :: 'o' :: 'd' :: 'o' :: ':' :: '/' :: '/' :: '/' :: id.data := by
    rw [String.data_append]
    rfl
  rw [h1]
  show stripLeadingSlash (String.mk ('/' :: id.data)) = id
  unfold stripLeadingSlash
  show String.mk id.data = id
  cases id
  rfl

lemma find?_append_self (l : Coll) (id : String) (v : Todo)
    (h : l.find? (fun p => p.1 = id) = none) :
    (l ++ [(id, v)]).find? (fun p => p.1 = id) = some (id, v) := by
  induction l with
  | nil => simp
  | cons q t ih =>
    by_cases hq : q.1 = id
    · rw [List.find?_cons_of_pos _ (by simpa using hq)] at h
      exact absurd h (by simp)
    · rw [List.find?_cons_of_neg _ (by simpa using hq)] at h
      rw [List.cons_append, List.find?_cons_of_neg _ (by simpa using hq)]
      exact ih h

lemma find?_map_replace (l : Coll) (id : String) (v : Todo)
    (h : l.any (fun p => p.1 = id) = true) :
    (l.map (fun p => if p.1 = id then (id, v) else p)).find? (fun p => p.1 = id)
      = some (id, v) := by
  induction l with
  | nil => simp at h
  | cons q t ih =>
    by_cases hq : q.1 = id
    · simp [hq]
    · have h2 : t.any (fun p => p.1 = id) = true := by
        rw [List.any_cons] at h
        simpa [hq] using h
      simp [hq, ih h2]

lemma objGet_objSet_self (todos : Coll) (id : String) (v : Todo) :
    objGet (objSet todos id v) id = some v := by
  unfold objSet objGet
  cases hany : todos.any (fun p => p.1 = id) with
  | false =>
    rw [if_neg (by simp [hany])]
    have hnone : todos.find? (fun p => p.1 = id) = none := by
      rw [List.find?_eq_none]
      intro x hx
      have := List.any_eq_false.mp hany x hx
      simpa using this
    rw [find?_append_self _ _ _ hnone]
    rfl
  | true =>
    rw [if_pos (by simp [hany])]
    rw [find?_map_replace _ _ _ hany]
    rfl

/-- The in-place update performed by `mark_todo_done` on a present key. -/
def markMap (todos : Coll) (id : String) (d : Bool) : Coll :=
  todos.map (fun p => if p.1 = id then (p.1, (⟨p.2.title, p.2.content, d⟩ : Todo)) else p)

lemma objGet_markMap_self (l : Coll) (id : String) (d : Bool) (t : Todo)
    (h : objGet l id = some t) :
    objGet (markMap l id d) id = some ⟨t.title, t.content, d⟩ := by
  unfold objGet at h
  unfold objGet markMap
  induction l with
  | nil => simp at h
  | cons q rest ih =>
    by_cases hq : q.1 = id
    · simp only [List.map_cons, if_pos hq]
      rw [List.find?_cons_of_pos _ (by simpa using hq)] at h ⊢
      have hqt : q.2 = t := Option.some.inj h
      show some (⟨q.2.title, q.2.content, d⟩ : Todo) = some ⟨t.title, t.content, d⟩
      rw [hqt]
    · simp only [List.map_cons, if_neg hq]
      rw [List.find?_cons_of_neg _ (by simpa using hq)] at h ⊢
      exact ih h

lemma objGet_markMap_other (l : Coll) (id k : String) (d : Bool) (hk : k ≠ id) :
    objGet (markMap l id d) k = objGet l k := by
  unfold objGet markMap
  induction l with
  | nil => rfl
  | cons q rest ih =>
    by_cases hq : q.1 = id
    · have hqk : ¬(q.1 = k) := by
        rw [hq]
        exact fun hh => hk hh.symm
      simp only [List.map_cons, if_pos hq]
      rw [List.find?_cons_of_neg _ (by simpa using hqk),
        List.find?_cons_of_neg _ (by simpa using hqk)]
      exact ih
    · by_cases hqk : q.1 = k
      · simp only [List.map_cons, if_neg hq]
        rw [List.find?_cons_of_pos _ (by simpa using hqk),
          List.find?_cons_of_pos _ (by simpa using hqk)]
      · simp only [List.map_cons, if_neg hq]
        rw [List.find?_cons_of_neg _ (by simpa using hqk),
          List.find?_cons_of_neg _ (by simpa using hqk)]
        exact ih

lemma markMap_map_fst (l : Coll) (id : String) (d : Bool) :
    (markMap l id d).map Prod.fst = l.map Prod.fst := by
  unfold markMap
  induction l with
  | nil => rfl
  | cons q rest ih =>
    by_cases hq : q.1 = id <;> simp [hq, ih]

/-- C4: for every identifier made of digits (the only shape this server
issues, and the shape on which the URI model is exact) that is absent
from the collection, the read-resource handler, `mark_todo_done` (for
any done argument) and `delete_todo` all fail with the not-found error
carrying that identifier, and the mutating handlers return the
collection unchanged. -/
theorem missing_id_fails_not_found_unchanged (todos : Coll) (id : String)
    (_hdigits : id.data.all Char.isDigit = true)
    (h : objGet todos id = none) :
    read_resource todos ("todo:///" ++ id) = Except.error ("Note " ++ id ++ " not found")
    ∧ (∀ d : Option Bool, mark_todo_done todos (some id) d
        = (todos, Except.error ("Todo " ++ id ++ " not found")))
    ∧ delete_todo todos (some id) = (todos, Except.error ("Todo " ++ id ++ " not found")) := by
  refine ⟨?_, ?_, ?_⟩
  · simp only [read_resource, extract_todo_uri, h]
  · intro d
    unfold mark_todo_done
    simp only [jsString, h]
  · unfold delete_todo
    simp only [jsString, h]

theorem missing_id_fails_not_found_unchanged_witness :
    read_resource [("1", (⟨"A", "aa", false⟩ : Todo))] ("todo:///7")
        = Except.error ("Note 7 not found")
    ∧ mark_todo_done [("1", (⟨"A", "aa", false⟩ : Todo))] (some "7") none
        = ([("1", ⟨"A", "aa", false⟩)], Except.error ("Todo 7 not found"))
    ∧ delete_todo [("1", (⟨"A", "aa", false⟩ : Todo))] (some "7")
        = ([("1", ⟨"A", "aa", false⟩)], Except.error ("Todo 7 not found")) := by
  have h := missing_id_fails_not_found_unchanged [("1", (⟨"A", "aa", false⟩ : Todo))] "7"
      (by decide) (by decide)
  exact ⟨h.1, h.2.1 none, h.2.2⟩

/-- C5: creating a todo with nonempty title and content and then reading
the resource `todo:///<id>` for the id the creation reported succeeds
and yields one content block whose text is the supplied content and
whose done flag is false. -/
theorem create_then_read_roundtrip (todos : Coll) (title content : String)
    (ht : title ≠ "") (hc : content ≠ "") :
    (create_todo todos (some title) (some content)).2
        = Except.ok ("Created todo " ++ assignedId todos ++ ": " ++ title)
    ∧ read_resource (create_todo todos (some title) (some content)).1
        ("todo:///" ++ assignedId todos)
        = Except.ok [⟨"todo:///" ++ assignedId todos, "text/plain", content, false⟩] := by
  constructor
  · simp only [create_todo, jsString]
    rw [if_neg (not_or.mpr ⟨ht, hc⟩)]
  · simp only [create_todo, jsString]
    rw [if_neg (not_or.mpr ⟨ht, hc⟩)]
    simp only [read_resource, extract_todo_uri, objGet_objSet_self]

theorem create_then_read_roundtrip_witness :
    read_resource (create_todo [] (some "T") (some "C")).1 ("todo:///" ++ assignedId [])
      = Except.ok [⟨"todo:///" ++ assignedId [], "text/plain", "C", false⟩] := by
  have h := create_then_read_roundtrip [] "T" "C" (by decide) (by decide)
  exact h.2

/-- C6: marking a present identifier changes only the done field of that
entry: the entry keeps its title and content, the key sequence of the
collection is unchanged, every other key still maps to its old value,
and the call reports "Marked todo <id> as done" or "... as not done"
according to the flag. -/
theorem mark_todo_done_frame (todos : Coll) (id : String) (d : Bool) (t : Todo)
    (h : objGet todos id = some t) :
    (mark_todo_done todos (some id) (some d)).2
        = Except.ok ("Marked todo " ++ id ++ " as " ++ (if d then "done" else "not done"))
    ∧ objGet (mark_todo_done todos (some id) (some d)).1 id = some ⟨t.title, t.content, d⟩
    ∧ ((mark_todo_done todos (some id) (some d)).1).map Prod.fst = todos.map Prod.fst
    ∧ ∀ k, k ≠ id → objGet (mark_todo_done todos (some id) (some d)).1 k = objGet todos k := by
  have hunf : mark_todo_done todos (some id) (some d)
      = (markMap todos id d,
         Except.ok ("Marked todo " ++ id ++ " as " ++ (if d then "done" else "not done"))) := by
    unfold mark_todo_done markMap
    simp only [jsString, jsBool, h]
  rw [hunf]
  exact ⟨rfl, objGet_markMap_self _ _ _ _ h, markMap_map_fst _ _ _,
    fun k hk => objGet_markMap_other _ _ _ _ hk⟩

theorem mark_todo_done_frame_witness :
    (mark_todo_done [("1", (⟨"A", "aa", false⟩ : Todo)), ("2", ⟨"B", "bb", false⟩)] (some "1") (some true)).2
        = Except.ok ("Marked todo 1 as done")
    ∧ objGet (mark_todo_done [("1", (⟨"A", "aa", false⟩ : Todo)), ("2", ⟨"B", "bb", false⟩)] (some "1") (some true)).1 "1"
        = some ⟨"A", "aa", true⟩
    ∧ objGet (mark_todo_done [("1", (⟨"A", "aa", false⟩ : Todo)), ("2", ⟨"B", "bb", false⟩)] (some "1") (some true)).1 "2"
        = some ⟨"B", "bb", false⟩ := by
  have h := mark_todo_done_frame [("1", (⟨"A", "aa", false⟩ : Todo)), ("2", ⟨"B", "bb", false⟩)]
      "1" true ⟨"A", "aa", false⟩ (by decide)
  exact ⟨h.1, h.2.1, (h.2.2.2 "2" (by decide)).trans (by decide)⟩

/-- C10: calling `mark_todo_done` on a present identifier with the done
argument absent does not fail although the tool schema declares it
required: `Boolean(undefined)` is `false`, the entry's done field is set
to false, and the call returns "Marked todo <id> as not done". -/
theorem mark_absent_done_coerced_false (todos : Coll) (id : String) (t : Todo)
    (h : objGet todos id = some t) :
    (mark_todo_done todos (some id) none).2
        = Except.ok ("Marked todo " ++ id ++ " as not done")
    ∧ objGet (mark_todo_done todos (some id) none).1 id = some ⟨t.title, t.content, false⟩ := by
  have hunf : mark_todo_done todos (some id) none
      = (markMap todos id false,
         Except.ok (("Marked todo " ++ id ++ " as ") ++ "not done")) := by
    unfold mark_todo_done markMap
    simp only [jsString, jsBool, h]
    rfl
  rw [hunf]
  constructor
  · have hmsg : ("Marked todo " ++ id ++ " as ") ++ "not done"
        = "Marked todo " ++ id ++ " as not done" := by
      rw [String.append_assoc]
      rfl
    rw [hmsg]
  · exact objGet_markMap_self _ _ _ _ h

theorem mark_absent_done_coerced_false_witness :
    (mark_todo_done [("1", (⟨"A", "aa", true⟩ : Todo))] (some "1") none).2
        = Except.ok ("Marked todo 1 as not done")
    ∧ objGet (mark_todo_done [("1", (⟨"A", "aa", true⟩ : Todo))] (some "1") none).1 "1"
        = some ⟨"A", "aa", false⟩ := by
  have h := mark_absent_done_coerced_false [("1", (⟨"A", "aa", true⟩ : Todo))] "1"
      ⟨"A", "aa", true⟩ (by decide)
  exact ⟨h.1, h.2⟩

end TodoMcp
